import Mathlib

/-!
Verification of the `EventLoop` reactor-thread engine
(`src/logdevice/common/EventLoop.cpp`) against its specification.

The development is a shallow embedding of `EventLoop.cpp`:
pure data and state-transformer functions mirror the C++ member functions,
and traces (lists of step labels) record the order of the side-effecting
calls that the specification talks about.  Machine integers are modelled as
`Nat` with an explicit `% 2 ^ 64` where the C++ code uses `uint64_t`
arithmetic; `steady_clock` time points are modelled as nanosecond counts
(`Nat`, bounded by `2 ^ 63` where the `int64_t` representation matters).
-/

set_option autoImplicit false

namespace LogDevice

/-- Status codes from `logdevice/include/Err.h` that `EventLoop.cpp` uses:
`OK`, `NOMEM`, `SYSLIMIT` and `INTERNAL`. -/
inductive Status where
  | OK
  | NOMEM
  | SYSLIMIT
  | INTERNAL
  deriving DecidableEq, Repr, Fintype

/-- Result of `EvBase::init()` (the external reactor primitive; the spec treats
it as an opaque collaborator).  `OTHER` stands for every value that falls into
the `default:` branch of the `switch` in `createEventBase`. -/
inductive EvBaseStatus where
  | OK
  | NO_MEM
  | INVALID_PRIORITY
  | OTHER
  deriving DecidableEq, Repr, Fintype

/-- Shallow embedding of the file-static `createEventBase` (EventLoop.cpp
lines 33-55).  `err0` is the incoming value of the thread-local global `err`;
the result is `(base was produced, value of err after the call)`: on
`NO_MEM` it sets `err` to `NOMEM`, on `INVALID_PRIORITY` to `SYSLIMIT`, on any
other failure to `INTERNAL`, and on `OK` it returns the base leaving `err`
untouched. -/
def createEventBase (err0 : Status) (rv : EvBaseStatus) : Bool × Status :=
  match rv with
  | .NO_MEM => (false, .NOMEM)
  | .INVALID_PRIORITY => (false, .SYSLIMIT)
  | .OK => (true, err0)
  | .OTHER => (false, .INTERNAL)

/-- Timeout values passed to `evtimer_add` by the delay monitor:
`getZeroTimeout()` (a near-zero delay) and `getCommonTimeout(1s)` (one
second). -/
inductive TimerKind where
  | zeroTimeout
  | commonTimeout1s
  deriving DecidableEq, Repr, Fintype

/-- DelayMonitor state of an `EventLoop`: the members
`scheduled_event_start_time_` (a `steady_clock::time_point`, whose
`time_point::min()` sentinel is modelled as `none`; a recorded time is a
nanosecond count) and `delay_us_` (a `std::atomic<uint64_t>`, modelled as a
`Nat` that the update step reduces `% 2 ^ 64`). -/
structure DelayState where
  scheduled_event_start_time_ : Option Nat
  delay_us_ : Nat
  deriving DecidableEq, Repr

/-- Shallow embedding of `EventLoop::delayCheckCallback` (EventLoop.cpp lines
113-130) as a pure state transformer.  `now` is the value of
`steady_clock::now()` in nanoseconds.  If a start time is recorded (the
member is not the `min()` sentinel), the callback re-arms the one-second
timer, adds the elapsed time (converted to whole microseconds, i.e. divided
by 1000) to `delay_us_` when `now` is strictly after the recorded start, and
resets the member to the sentinel; otherwise it arms the near-zero timer and
records `now`.  The returned `TimerKind` is the timeout passed to
`evtimer_add`. -/
def delayCheckCallback (now : Nat) (s : DelayState) : DelayState × TimerKind :=
  match s.scheduled_event_start_time_ with
  | some t0 =>
      (⟨none,
        if t0 < now then (s.delay_us_ + (now - t0) / 1000) % 2 ^ 64
        else s.delay_us_⟩,
       .commonTimeout1s)
  | none => (⟨some now, s.delay_us_⟩, .zeroTimeout)

/-- State part of one delay-monitor callback. -/
def delayStep (now : Nat) (s : DelayState) : DelayState :=
  (delayCheckCallback now s).1

/-- Idle means no recorded start time (the member holds the sentinel). -/
def DelayState.isIdle (s : DelayState) : Prop :=
  s.scheduled_event_start_time_ = none

/-- Waiting means a start time is recorded. -/
def DelayState.isWaiting (s : DelayState) : Prop :=
  s.scheduled_event_start_time_ ≠ none

/-- C3: the delay-monitor timer callback is a two-state machine that strictly
alternates: from Idle it records the current time, arms the near-zero-delay
timer and moves to Waiting; from Waiting it adds the elapsed microseconds
since the recorded start to the accumulated counter, arms the one-second
timer and moves back to Idle. -/
theorem delayCheckCallback_alternates (now : Nat) (s : DelayState) :
    (s.isIdle →
      (delayStep now s).isWaiting
      ∧ (delayStep now s).scheduled_event_start_time_ = some now
      ∧ (delayStep now s).delay_us_ = s.delay_us_
      ∧ (delayCheckCallback now s).2 = .zeroTimeout)
    ∧ (∀ t0, s.scheduled_event_start_time_ = some t0 →
        (delayStep now s).isIdle
        ∧ (delayCheckCallback now s).2 = .commonTimeout1s
        ∧ (t0 ≤ now → s.delay_us_ < 2 ^ 64 →
            (delayStep now s).delay_us_
              = (s.delay_us_ + (now - t0) / 1000) % 2 ^ 64)) := by
  obtain ⟨st, d⟩ := s
  constructor
  · intro h
    simp only [DelayState.isIdle] at h
    subst h
    exact ⟨Option.some_ne_none now, rfl, rfl, rfl⟩
  · intro t0 h
    simp only at h
    subst h
    refine ⟨rfl, rfl, ?_⟩
    intro hle hlt
    simp only [delayStep, delayCheckCallback]
    rcases Nat.lt_or_ge t0 now with hlt' | hge
    · simp [hlt']
    · have : t0 = now := Nat.le_antisymm hle hge
      subst this
      simp only at hlt
      have h2 : (d + (t0 - t0) / 1000) % 2 ^ 64 = d := by
        have h3 : (2 : Nat) ^ 64 = 18446744073709551616 := by norm_num
        rw [h3] at hlt ⊢
        omega
      rw [h2, if_neg (Nat.lt_irrefl t0)]

/-- Witness for `delayCheckCallback_alternates` at a concrete state. -/
theorem delayCheckCallback_alternates_w :
    (delayStep 7 ⟨some 3, 5⟩).isIdle
    ∧ (delayCheckCallback 7 ⟨some 3, 5⟩).2 = .commonTimeout1s := by
  have h := (delayCheckCallback_alternates 7 ⟨some 3, 5⟩).2 3 rfl
  exact ⟨h.1, h.2.1⟩

/-- C9: when the callback fires in the Waiting state and the clock reading is
not strictly after the recorded start, the accumulated counter is left
unchanged, the one-second timer is still armed, and the state still resets to
Idle. -/
theorem delayCheckCallback_no_negative_add (now t0 : Nat) (s : DelayState)
    (hw : s.scheduled_event_start_time_ = some t0) (hle : now ≤ t0) :
    (delayStep now s).delay_us_ = s.delay_us_
    ∧ (delayStep now s).scheduled_event_start_time_ = none
    ∧ (delayCheckCallback now s).2 = .commonTimeout1s := by
  obtain ⟨st, d⟩ := s
  simp only at hw
  subst hw
  have hnot : ¬ t0 < now := Nat.not_lt.mpr hle
  simp [delayStep, delayCheckCallback, hnot]

/-- Witness for `delayCheckCallback_no_negative_add` at a concrete state. -/
theorem delayCheckCallback_no_negative_add_w :
    (delayStep 3 ⟨some 3, 41⟩).delay_us_ = 41
    ∧ (delayStep 3 ⟨some 3, 41⟩).scheduled_event_start_time_ = none
    ∧ (delayCheckCallback 3 ⟨some 3, 41⟩).2 = .commonTimeout1s :=
  delayCheckCallback_no_negative_add 3 3 ⟨some 3, 41⟩ rfl (by decide)

/-- Modelled from the spec: the DelayMonitor starts Idle with a zero
accumulated counter (the member declarations with their initial values live in
`EventLoop.h`, which is not under `src/`; the spec describes the monitor as an
Idle/Waiting machine with a monotonically increasing accumulated-delay
counter). -/
def initialDelayState : DelayState := ⟨none, 0⟩

/-- Invariant tying a `DelayState` to the time `t` (in nanoseconds) of the
last delay-monitor callback: the accumulated microsecond counter is bounded by
`t / 1000`, and a recorded start time is in the past. -/
def DelayInv (t : Nat) (s : DelayState) : Prop :=
  match s.scheduled_event_start_time_ with
  | none => s.delay_us_ ≤ t / 1000
  | some t0 => t0 ≤ t ∧ s.delay_us_ ≤ t0 / 1000

theorem div_add_div_le_add_div (a b c : Nat) :
    a / c + b / c ≤ (a + b) / c := by
  rcases Nat.eq_zero_or_pos c with hc | hc
  · subst hc
    simp
  · rw [Nat.le_div_iff_mul_le hc, Nat.add_mul]
    exact Nat.add_le_add (Nat.div_mul_le_self a c) (Nat.div_mul_le_self b c)

/-- One delay-monitor callback never decreases `delay_us_` and preserves
`DelayInv`, provided the clock is monotone (`t ≤ now`) and `now` is a valid
`int64` nanosecond count (`now < 2 ^ 63`, so the `uint64_t` accumulation
cannot wrap). -/
theorem delayStep_mono_inv (t now : Nat) (s : DelayState)
    (hInv : DelayInv t s) (ht : t ≤ now) (hb : now < 2 ^ 63) :
    s.delay_us_ ≤ (delayStep now s).delay_us_
    ∧ DelayInv now (delayStep now s) := by
  obtain ⟨st, d⟩ := s
  cases st with
  | none =>
      simp only [DelayInv] at hInv
      refine ⟨Nat.le_refl d, ?_⟩
      simp only [delayStep, delayCheckCallback, DelayInv]
      exact ⟨Nat.le_refl now, Nat.le_trans hInv (Nat.div_le_div_right ht)⟩
  | some t0 =>
      simp only [DelayInv] at hInv
      obtain ⟨ht0, hd⟩ := hInv
      have ht0now : t0 ≤ now := Nat.le_trans ht0 ht
      simp only [delayStep, delayCheckCallback, DelayInv]
      rcases Nat.lt_or_ge t0 now with hlt | hge
      · have hraw : d + (now - t0) / 1000 ≤ now / 1000 := by
          have h1 : d + (now - t0) / 1000 ≤ t0 / 1000 + (now - t0) / 1000 :=
            Nat.add_le_add_right hd _
          have h2 : t0 / 1000 + (now - t0) / 1000 ≤ (t0 + (now - t0)) / 1000 :=
            div_add_div_le_add_div t0 (now - t0) 1000
          have h3 : t0 + (now - t0) = now := Nat.add_sub_cancel' ht0now
          rw [h3] at h2
          exact Nat.le_trans h1 h2
        have hsmall : d + (now - t0) / 1000 < 2 ^ 64 := by
          have h4 : now / 1000 ≤ now := Nat.div_le_self now 1000
          have h5 : (2 : Nat) ^ 63 < 2 ^ 64 := by norm_num
          omega
        have hmod : (d + (now - t0) / 1000) % 2 ^ 64 = d + (now - t0) / 1000 :=
          Nat.mod_eq_of_lt hsmall
        simp only [hlt, if_pos, hmod]
        exact ⟨Nat.le_add_right d _, hraw⟩
      · have hnot : ¬ t0 < now := Nat.not_lt.mpr hge
        have heq : t0 = now := Nat.le_antisymm ht0now hge
        simp only [hnot, if_neg, ite_false]
        subst heq
        exact ⟨Nat.le_refl d, hd⟩

/-- Delay-us values along a run of the delay monitor from state `s` through
the callback times `times`. -/
def delayTraceFrom (s : DelayState) (times : List Nat) : List Nat :=
  (times.scanl (fun a b => delayStep b a) s).map DelayState.delay_us_

/-- Delay-us values along a run of the delay monitor from the initial state. -/
def delayTrace (times : List Nat) : List Nat :=
  delayTraceFrom initialDelayState times

theorem delayTraceFrom_chain (times : List Nat) :
    ∀ (t : Nat) (s : DelayState), DelayInv t s →
      List.Chain' (· ≤ ·) (t :: times) → (∀ x ∈ times, x < 2 ^ 63) →
      List.Chain' (· ≤ ·) (delayTraceFrom s times) := by
  induction times with
  | nil =>
      intro t s _ _ _
      simp [delayTraceFrom]
  | cons x xs ih =>
      intro t s hInv hmono hb
      have hx : t ≤ x := (List.chain'_cons.mp hmono).1
      have hmono' : List.Chain' (· ≤ ·) (x :: xs) := (List.chain'_cons.mp hmono).2
      have hbx : x < 2 ^ 63 := hb x (List.mem_cons_self x xs)
      have hstep := delayStep_mono_inv t x s hInv hx hbx
      have htail : List.Chain' (· ≤ ·) (delayTraceFrom (delayStep x s) xs) :=
        ih x (delayStep x s) hstep.2 hmono' (fun y hy => hb y (List.mem_cons_of_mem x hy))
      cases xs with
      | nil =>
          simp only [delayTraceFrom, List.scanl, List.map]
          exact List.chain'_cons.mpr ⟨hstep.1, List.chain'_singleton _⟩
      | cons y ys =>
          simp only [delayTraceFrom, List.scanl, List.map] at htail ⊢
          exact List.chain'_cons.mpr ⟨hstep.1, htail⟩

/-- C4: across every monotone sequence of delay-monitor callbacks (with valid
`int64` nanosecond clock readings), the accumulated counter trajectory is
non-decreasing; the counter changes at a step only when the state was Waiting
and the measured elapsed time exceeds the expected zero interval (`now`
strictly after the recorded start); and a measurement at or below the
expected interval leaves the counter unchanged. -/
theorem delay_us_nondecreasing (times : List Nat)
    (hmono : List.Chain' (· ≤ ·) times) (hb : ∀ x ∈ times, x < 2 ^ 63) :
    List.Chain' (· ≤ ·) (delayTrace times)
    ∧ (∀ (now : Nat) (s : DelayState),
        (delayStep now s).delay_us_ ≠ s.delay_us_ →
        ∃ t0, s.scheduled_event_start_time_ = some t0 ∧ t0 < now)
    ∧ (∀ (now : Nat) (s : DelayState) (t0 : Nat),
        s.scheduled_event_start_time_ = some t0 → now ≤ t0 →
        (delayStep now s).delay_us_ = s.delay_us_) := by
  refine ⟨?_, ?_, ?_⟩
  · have hInv0 : DelayInv 0 initialDelayState := by
      simp [DelayInv, initialDelayState]
    have hmono0 : List.Chain' (· ≤ ·) (0 :: times) := by
      cases times with
      | nil => exact List.chain'_singleton 0
      | cons y ys => exact List.chain'_cons.mpr ⟨Nat.zero_le y, hmono⟩
    exact delayTraceFrom_chain times 0 initialDelayState hInv0 hmono0 hb
  · intro now s hne
    obtain ⟨st, d⟩ := s
    cases st with
    | none => exact absurd rfl hne
    | some t0 =>
        refine ⟨t0, rfl, ?_⟩
        by_contra hnot
        have : ¬ t0 < now := hnot
        simp [delayStep, delayCheckCallback, this] at hne
  · intro now s t0 hw hle
    exact (delayCheckCallback_no_negative_add now t0 s hw hle).1

/-- Witness for `delay_us_nondecreasing` at a concrete callback sequence. -/
theorem delay_us_nondecreasing_w :
    List.Chain' (· ≤ ·) (delayTrace [1000, 250000, 260000, 1300000]) :=
  (delay_us_nondecreasing [1000, 250000, 260000, 1300000]
    (by norm_num [List.chain'_cons]) (by decide)).1

/-- Fields of an `EventLoop` object touched by `EventLoop::init` (EventLoop.cpp
lines 132-169), modelled as booleans recording whether each owned resource
exists / each flag was set: `base_` (the `EvBase`), `task_queue_` (the
`EventLoopTaskQueue`), whether `setCloseEventLoopOnShutdown` was called on the
queue, whether the thread-local `thisThreadLoop_` was published to `this`,
whether `scheduled_event_` was created, and which timeout (if any) the delay
timer is armed with. -/
structure LoopState where
  base_ : Bool
  task_queue_ : Bool
  closeEventLoopOnShutdown : Bool
  thisThreadLoop_ : Bool
  scheduled_event_ : Bool
  armedTimer : Option TimerKind
  deriving DecidableEq, Repr, Fintype

/-- Steps taken on the spawned thread during `EventLoop::init`, in the order
they are recorded in a trace. -/
inductive InitStep where
  | registerThreadIdentity
  | createBase
  | createTaskQueue
  | setCloseEventLoopOnShutdown
  | addBootstrapTask
  | loopOnce
  | publishThisThreadLoop
  | createScheduledEvent
  | armDelayTimer (k : TimerKind)
  deriving DecidableEq, Repr

/-- Body of the bootstrap task enqueued by `EventLoop::init` (EventLoop.cpp
lines 150-163): it publishes the thread-local self-reference, creates
`scheduled_event_` (`std::make_unique` cannot yield null, so the defensive
null check in the source is never taken) and arms the delay timer with
`getCommonTimeout(1s)`. -/
def bootstrapBody (s : LoopState) : LoopState × List InitStep :=
  (⟨s.base_, s.task_queue_, s.closeEventLoopOnShutdown, true, true,
    some .commonTimeout1s⟩,
   [.publishThisThreadLoop, .createScheduledEvent,
    .armDelayTimer .commonTimeout1s])

/-- Shallow embedding of `EventLoop::init` (EventLoop.cpp lines 132-169).
`err0` is the incoming value of the thread-local `err`; `rv` is the result of
`EvBase::init()` inside `createEventBase`; `bootstrapRuns` abstracts whether
the single non-blocking `loopOnce` pass of the opaque reactor primitive
executed the queued bootstrap task.  Returns the status `init` reports, the
final object state, and the ordered trace of steps taken. -/
def init (err0 : Status) (rv : EvBaseStatus) (bootstrapRuns : Bool) :
    Status × LoopState × List InitStep :=
  let c := createEventBase err0 rv
  if c.1 then
    let s1 : LoopState := ⟨true, true, true, false, false, none⟩
    let pre : List InitStep :=
      [.registerThreadIdentity, .createBase, .createTaskQueue,
       .setCloseEventLoopOnShutdown, .addBootstrapTask, .loopOnce]
    if bootstrapRuns then
      let b := bootstrapBody s1
      (if b.1.scheduled_event_ then Status.OK else Status.INTERNAL,
       b.1, pre ++ b.2)
    else
      (Status.INTERNAL, s1, pre)
  else
    (c.2, ⟨false, false, false, false, false, none⟩,
     [.registerThreadIdentity, .createBase])

/-- Events on the spawned thread's body (the lambda in EventLoop.cpp lines
69-80): it runs `init`, records the result in `init_result`, posts the
`initialized` semaphore, and calls `run` only when `init` returned `OK`. -/
inductive ThreadEvent where
  | initDone (st : Status)
  | semPost
  | runLoop
  deriving DecidableEq, Repr

/-- Trace of the spawned thread's body as a function of the status `init`
returned. -/
def threadBody (st : Status) : List ThreadEvent :=
  [.initDone st, .semPost] ++ (if st = Status.OK then [.runLoop] else [])

/-- Caller-side events of the constructor `EventLoop::EventLoop`
(EventLoop.cpp lines 57-87).  `semWait` models the blocking
`initialized.wait()`; it is ordered after the spawned thread's `semPost` by
the semaphore and carries no timeout. -/
inductive CtorEvent where
  | spawnThread
  | semWait
  | joinThread
  | throwConstructorFailed
  | ctorReturn
  deriving DecidableEq, Repr

/-- Result of constructing an `EventLoop`. -/
inductive CtorResult where
  | ok (s : LoopState)
  | failed (st : Status)
  deriving DecidableEq, Repr

/-- Shallow embedding of the constructor `EventLoop::EventLoop` (EventLoop.cpp
lines 57-87): it spawns the thread, blocks on the `initialized` semaphore
until the spawned thread has stored `init`'s result (modelled sequentially:
the semaphore is posted exactly once, right after `init` returns, so after
`semWait` the result is available), and on failure sets `err` to the result,
joins the thread and throws `ConstructorFailed`. -/
def construct (err0 : Status) (rv : EvBaseStatus) (bootstrapRuns : Bool) :
    CtorResult × List CtorEvent :=
  let r := init err0 rv bootstrapRuns
  if r.1 = Status.OK then
    (.ok r.2.1, [.spawnThread, .semWait, .ctorReturn])
  else
    (.failed r.1,
     [.spawnThread, .semWait, .joinThread, .throwConstructorFailed])

/-- Steps of `EventLoop::run` (EventLoop.cpp lines 171-180). -/
inductive RunStep where
  | callBaseLoop
  | logAbnormalExit
  | resetScheduledEvent
  deriving DecidableEq, Repr

/-- Shallow embedding of `EventLoop::run` (EventLoop.cpp lines 171-180):
`loopResult` is what `base_->loop()` returns (`OK` covers the queue-requested
stop; anything else is an abnormal exit).  The loop call happens once, an
abnormal result is logged, and `scheduled_event_.reset()` runs on every path
before the function (and with it the thread) returns. -/
def run (loopResult : EvBaseStatus) : List RunStep :=
  [.callBaseLoop]
    ++ (if loopResult = EvBaseStatus.OK then [] else [.logAbnormalExit])
    ++ [.resetScheduledEvent]

/-- Steps of the destructor `EventLoop::~EventLoop` (EventLoop.cpp lines
89-101). -/
inductive DtorStep where
  | shutdownTaskQueue
  | joinThread
  deriving DecidableEq, Repr

/-- Shallow embedding of `EventLoop::~EventLoop` (EventLoop.cpp lines 89-101):
`ld_check(num_references_.load() == 0)` is the asserted precondition (modelled
as `none`, i.e. no defined behaviour, when violated); when the thread handle
is not joinable the destructor returns immediately, and otherwise it calls
`task_queue_->shutdown()` and then `thread_.join()`. -/
def destructor (num_references_ : Nat) (joinable : Bool) :
    Option (List DtorStep) :=
  if num_references_ ≠ 0 then
    none
  else if joinable then
    some [.shutdownTaskQueue, .joinThread]
  else
    some []

/-- Constant `folly::Executor::LO_PRI` (external library, `SCHAR_MIN`). -/
def LO_PRI : Int := -128

/-- Constant `folly::Executor::HI_PRI` (external library, `SCHAR_MAX`). -/
def HI_PRI : Int := 127

/-- Modelled from the spec: the `EventLoopTaskQueue` (its implementation is
not under `src/`) keeps FIFO priority buckets, and its `addWithPriority`
appends the task to the bucket for the given priority.  The model records the
arrival-ordered list of (task, bucket-priority) pairs. -/
structure TaskQueueState where
  pending : List (Nat × Int)
  deriving DecidableEq, Repr

/-- Modelled from the spec: `EventLoopTaskQueue::addWithPriority` appends the
task to the bucket for `priority`. -/
def taskQueueAddWithPriority (q : TaskQueueState) (task : Nat)
    (priority : Int) : TaskQueueState :=
  ⟨q.pending ++ [(task, priority)]⟩

/-- Shallow embedding of `EventLoop::addWithPriority` (EventLoop.cpp lines
107-111): forwards the task to the queue under the given priority when
`priority_queues_enabled_` holds and under `folly::Executor::HI_PRI`
otherwise. -/
def addWithPriority (priority_queues_enabled_ : Bool) (q : TaskQueueState)
    (task : Nat) (priority : Int) : TaskQueueState :=
  taskQueueAddWithPriority q task
    (if priority_queues_enabled_ then priority else HI_PRI)

/-- Shallow embedding of `EventLoop::add` (EventLoop.cpp lines 103-105):
delegates to `addWithPriority` with `folly::Executor::LO_PRI`. -/
def add (priority_queues_enabled_ : Bool) (q : TaskQueueState)
    (task : Nat) : TaskQueueState :=
  addWithPriority priority_queues_enabled_ q task LO_PRI

/-- C1: on the spawned thread, `init` performs its steps strictly in order:
register the thread identity; create the reactor primitive, stopping
immediately with the specific failure reason when creation fails; create the
task queue and configure it so queue shutdown also stops the reactor; enqueue
the bootstrap task that publishes the thread-local self-reference and arms
the delay monitor's first timer; and run exactly one non-blocking reactor
pass — so whenever construction succeeds, the self-reference is published and
the delay timer is armed before the constructor returns. -/
theorem init_steps_ordered (err0 : Status) (rv : EvBaseStatus)
    (bootstrapRuns : Bool) :
    (rv = .NO_MEM →
      init err0 rv bootstrapRuns
        = (Status.NOMEM, ⟨false, false, false, false, false, none⟩,
           [.registerThreadIdentity, .createBase]))
    ∧ (rv = .INVALID_PRIORITY →
      init err0 rv bootstrapRuns
        = (Status.SYSLIMIT, ⟨false, false, false, false, false, none⟩,
           [.registerThreadIdentity, .createBase]))
    ∧ (rv = .OTHER →
      init err0 rv bootstrapRuns
        = (Status.INTERNAL, ⟨false, false, false, false, false, none⟩,
           [.registerThreadIdentity, .createBase]))
    ∧ (rv = .OK →
      (init err0 rv bootstrapRuns).2.2
        = [.registerThreadIdentity, .createBase, .createTaskQueue,
           .setCloseEventLoopOnShutdown, .addBootstrapTask, .loopOnce]
          ++ (if bootstrapRuns then
                [.publishThisThreadLoop, .createScheduledEvent,
                 .armDelayTimer .commonTimeout1s]
              else []))
    ∧ (rv = .OK →
      ((init err0 rv bootstrapRuns).2.2.count .loopOnce = 1))
    ∧ ((init err0 rv bootstrapRuns).1 = Status.OK →
       (init err0 rv bootstrapRuns).2.1.thisThreadLoop_ = true
       ∧ (init err0 rv bootstrapRuns).2.1.armedTimer = some .commonTimeout1s
       ∧ (init err0 rv bootstrapRuns).2.1.closeEventLoopOnShutdown = true)
    ∧ (∀ s : LoopState, (construct err0 rv bootstrapRuns).1 = .ok s →
        s.thisThreadLoop_ = true ∧ s.armedTimer = some .commonTimeout1s) := by
  cases err0 <;> cases rv <;> cases bootstrapRuns <;> decide

/-- Witness for `init_steps_ordered` at concrete inputs. -/
theorem init_steps_ordered_w :
    init Status.INTERNAL EvBaseStatus.NO_MEM true
      = (Status.NOMEM, ⟨false, false, false, false, false, none⟩,
         [.registerThreadIdentity, .createBase]) :=
  (init_steps_ordered Status.INTERNAL EvBaseStatus.NO_MEM true).1 rfl

/-- C2: the constructor blocks on the semaphore until the spawned thread
reports the `init` result; on every failure it joins the thread before
throwing, and the reported reason is exactly resource exhaustion (`NOMEM`,
from reactor creation out of memory), `SYSLIMIT` (event-base priority setup
failed) or `INTERNAL` (any other reactor-primitive failure, including the
bootstrap task failing to arm the delay timer). -/
theorem construct_failure_reasons (err0 : Status) (rv : EvBaseStatus)
    (bootstrapRuns : Bool) :
    (∀ st : Status, (construct err0 rv bootstrapRuns).1 = .failed st →
      (construct err0 rv bootstrapRuns).2
        = [.spawnThread, .semWait, .joinThread, .throwConstructorFailed]
      ∧ (st = Status.NOMEM ∨ st = Status.SYSLIMIT ∨ st = Status.INTERNAL)
      ∧ (st = Status.NOMEM ↔ rv = .NO_MEM)
      ∧ (st = Status.SYSLIMIT ↔ rv = .INVALID_PRIORITY)
      ∧ (st = Status.INTERNAL
          ↔ (rv = .OTHER ∨ (rv = .OK ∧ bootstrapRuns = false))))
    ∧ (∀ s : LoopState, (construct err0 rv bootstrapRuns).1 = .ok s →
        (construct err0 rv bootstrapRuns).2
          = [.spawnThread, .semWait, .ctorReturn]) := by
  cases err0 <;> cases rv <;> cases bootstrapRuns <;> decide

/-- Witness for `construct_failure_reasons` at concrete inputs. -/
theorem construct_failure_reasons_w :
    (construct Status.INTERNAL EvBaseStatus.NO_MEM true).2
      = [.spawnThread, .semWait, .joinThread, .throwConstructorFailed] :=
  ((construct_failure_reasons Status.INTERNAL EvBaseStatus.NO_MEM true).1
    Status.NOMEM rfl).1

/-- C5: under the asserted precondition that no external caller still holds a
reference (`num_references_ = 0`), the destructor is a no-op when the thread
handle is not joinable, and otherwise signals queue shutdown and then joins
the OS thread, in that order. -/
theorem destructor_shutdown_then_join (num_references_ : Nat)
    (joinable : Bool) (h : num_references_ = 0) :
    (joinable = false → destructor num_references_ joinable = some [])
    ∧ (joinable = true →
        destructor num_references_ joinable
          = some [.shutdownTaskQueue, .joinThread]) := by
  subst h
  cases joinable <;> simp [destructor]

/-- Witness for `destructor_shutdown_then_join` at concrete inputs. -/
theorem destructor_shutdown_then_join_w :
    destructor 0 true = some [.shutdownTaskQueue, .joinThread] :=
  (destructor_shutdown_then_join 0 true rfl).2 rfl

/-- C6: for every task and every `int8` priority argument, `addWithPriority`
enqueues onto the bucket for the given priority when priority queues are
enabled, and remaps the task to the single top (highest) priority bucket
`HI_PRI` when they are disabled, regardless of the priority argument. -/
theorem addWithPriority_bucket (enabled : Bool) (q : TaskQueueState)
    (task : Nat) (p : Int) (_hlo : -128 ≤ p) (_hhi : p ≤ 127) :
    (enabled = true →
      (addWithPriority enabled q task p).pending = q.pending ++ [(task, p)])
    ∧ (enabled = false →
        (addWithPriority enabled q task p).pending
          = q.pending ++ [(task, HI_PRI)]
        ∧ ∀ p' : Int, -128 ≤ p' → p' ≤ 127 → p' ≤ HI_PRI) := by
  constructor
  · intro h
    subst h
    simp [addWithPriority, taskQueueAddWithPriority]
  · intro h
    subst h
    refine ⟨by simp [addWithPriority, taskQueueAddWithPriority], ?_⟩
    intro p' _ h2
    exact h2

/-- Witness for `addWithPriority_bucket` at concrete inputs. -/
theorem addWithPriority_bucket_w :
    (addWithPriority true ⟨[]⟩ 0 5).pending = [] ++ [(0, 5)] :=
  (addWithPriority_bucket true ⟨[]⟩ 0 5 (by decide) (by decide)).1 rfl

/-- C7: the run loop calls the reactor's blocking loop exactly once (no
retry), logs an abnormal exit exactly when the loop result is not `OK`, and on
every exit path releases the delay monitor's outstanding timer event as the
last step before the thread function returns. -/
theorem run_single_pass_cleanup (loopResult : EvBaseStatus) :
    (run loopResult).count .callBaseLoop = 1
    ∧ ((RunStep.logAbnormalExit ∈ run loopResult) ↔ loopResult ≠ .OK)
    ∧ (run loopResult).getLast? = some .resetScheduledEvent := by
  revert loopResult
  decide

/-- Witness for `run_single_pass_cleanup` at a concrete input. -/
theorem run_single_pass_cleanup_w :
    (run EvBaseStatus.OTHER).count .callBaseLoop = 1 :=
  (run_single_pass_cleanup EvBaseStatus.OTHER).1

/-- C8: the unprioritized `add` is exactly `addWithPriority` at
`folly::Executor::LO_PRI`, the lowest `int8` priority: with priority queues
enabled the task lands in the lowest-priority bucket, and with them disabled
it is remapped to the top bucket like every other submission. -/
theorem add_is_addWithPriority_lowest (enabled : Bool) (q : TaskQueueState)
    (task : Nat) :
    add enabled q task = addWithPriority enabled q task LO_PRI
    ∧ (enabled = true →
        (add enabled q task).pending = q.pending ++ [(task, LO_PRI)]
        ∧ ∀ p' : Int, -128 ≤ p' → p' ≤ 127 → LO_PRI ≤ p')
    ∧ (enabled = false →
        (add enabled q task).pending = q.pending ++ [(task, HI_PRI)]) := by
  refine ⟨rfl, ?_, ?_⟩
  · intro h
    subst h
    refine ⟨by simp [add, addWithPriority, taskQueueAddWithPriority], ?_⟩
    intro p' h1 _
    exact h1
  · intro h
    subst h
    simp [add, addWithPriority, taskQueueAddWithPriority]

/-- Witness for `add_is_addWithPriority_lowest` at concrete inputs. -/
theorem add_is_addWithPriority_lowest_w :
    add true ⟨[]⟩ 3 = addWithPriority true ⟨[]⟩ 3 LO_PRI :=
  (add_is_addWithPriority_lowest true ⟨[]⟩ 3).1

/-- C10: the spawned thread's body posts the semaphore exactly once, after
`init` has completed with its final status, and enters the run loop only when
`init` returned `OK` — the reactor loop never runs on a thread whose
`init` failed. -/
theorem threadBody_post_once_run_gated (st : Status) :
    (threadBody st).count .semPost = 1
    ∧ (threadBody st).head? = some (.initDone st)
    ∧ (threadBody st)[1]? = some .semPost
    ∧ ((ThreadEvent.runLoop ∈ threadBody st) ↔ st = Status.OK)
    ∧ (st = Status.OK →
        threadBody st = [.initDone st, .semPost, .runLoop])
    ∧ (st ≠ Status.OK → threadBody st = [.initDone st, .semPost]) := by
  revert st
  decide

/-- Witness for `threadBody_post_once_run_gated` at a concrete input. -/
theorem threadBody_post_once_run_gated_w :
    threadBody Status.OK
      = [.initDone Status.OK, .semPost, .runLoop] :=
  (threadBody_post_once_run_gated Status.OK).2.2.2.2.1 rfl

end LogDevice
